import Mathlib

/-!
Shallow embedding of `src/shared/window-drag/main.ts` (MusicFreeDesktop).

The module makes an undecorated window draggable.  On win32 it hooks the raw
window messages `WM_MOUSEMOVE` / `WM_LBUTTONUP` (`makeWin32WindowFullyDraggable`,
"Strategy A"); elsewhere it keeps a registry of windows and repositions them on
`"set-window-draggable"` IPC messages, debouncing the caller's `onDragEnd`
("Strategy B").  Handlers are synchronous; we model each handler invocation as a
pure step function from state to state plus a list of emitted effects
(`setBounds` calls on the window and `onDragEnd` callback invocations).
-/

/-- `ICommon.IPoint`: a plain `{x, y}` value. -/
structure IPoint where
  x : Int
  y : Int
deriving DecidableEq

/-- `ICommon.ISize`: a plain `{width, height}` value. -/
structure ISize where
  width : Int
  height : Int
deriving DecidableEq

/-- `WM_MOUSEMOVE = 0x0200` (message id; the event constructor below stands for it). -/
def WM_MOUSEMOVE : Nat := 0x0200

/-- `WM_LBUTTONUP = 0x0202`. -/
def WM_LBUTTONUP : Nat := 0x0202

/-- `MK_LBUTTON = 0x0001`, the primary-button bit of the `wParam` word. -/
def MK_LBUTTON : Int := 0x0001

/-- Registration options (`IDragOptions`).  `getWindowSize` is an optional
callback whose momentary return value is supplied by the environment at each
event (`env` arguments below); here we record only whether it was provided. -/
structure IDragOptions where
  width : Int
  height : Int
  hasGetWindowSize : Bool
deriving DecidableEq

/-- The mutable `initialPos` record of `makeWin32WindowFullyDraggable`
(`{x, y, height, width}`). -/
structure InitialPos where
  x : Int
  y : Int
  height : Int
  width : Int
deriving DecidableEq

/-- Node's `Buffer.prototype.readInt16LE(offset)`: the two bytes at `offset`
(low first) combined and interpreted as a signed 16-bit integer.  Buffers are
byte lists; out-of-range reads are totalised with byte `0`. -/
def readInt16LE (buf : List Nat) (off : Nat) : Int :=
  let u : Nat := buf.getD off 0 + 256 * buf.getD (off + 1) 0
  if u < 32768 then (u : Int) else (u : Int) - 65536

/-- Little-endian byte encoding of a 16-bit value (used to build concrete
`lParam`/`wParam` buffers in statements; inverse of `readInt16LE` on range). -/
def enc16 (v : Int) : List Nat :=
  let u : Nat := (v % 65536).toNat
  [u % 256, u / 256]

/-- Per-window state of Strategy A: the window's current top-left corner
(`browserWindow.getPosition`, updated by `setBounds`) together with the
closure-captured mutables `dragging`, `cachePosition` and `initialPos`. -/
structure Win32State where
  winPos : IPoint
  dragging : Bool
  cachePosition : Option IPoint
  initialPos : InitialPos
deriving DecidableEq

/-- Observable effects of a Strategy A handler invocation. -/
inductive Effect where
  | setBounds (x y height width : Int)
  | dragEnd (pos : Option IPoint)
deriving DecidableEq

/-- State right after `makeWin32WindowFullyDraggable` runs: `dragging = false`,
`cachePosition = null`, `initialPos = {x: 0, y: 0, height, width}`. -/
def win32Init (opts : IDragOptions) (winPos : IPoint) : Win32State :=
  { winPos := winPos
    dragging := false
    cachePosition := none
    initialPos := ⟨0, 0, opts.height, opts.width⟩ }

/-- The `WM_LBUTTONUP` hook: clear `dragging`; if a `cachePosition` exists,
invoke `onDragEnd(cachePosition)`; clear `cachePosition`. -/
def win32ButtonUp (st : Win32State) : Win32State × List Effect :=
  let effs := match st.cachePosition with
    | some p => [Effect.dragEnd (some p)]
    | none => []
  ({ st with dragging := false, cachePosition := none }, effs)

/-- The `WM_MOUSEMOVE` hook.  `env` is the value `getWindowSize()` would return
at this instant.  Reads the button word from `wParam`, bails out unless
`MK_LBUTTON` is set, decodes the cursor position from `lParam`; the first
qualifying move establishes the drag origin (no reposition), every later one
repositions the window and caches the computed position. -/
def win32Move (opts : IDragOptions) (env : ISize) (st : Win32State)
    (wParam lParam : List Nat) : Win32State × List Effect :=
  let wParamNumber : Int := readInt16LE wParam 0
  if Int.land wParamNumber MK_LBUTTON = 0 then
    (st, [])
  else
    let x := readInt16LE lParam 0
    let y := readInt16LE lParam 2
    if !st.dragging then
      let initWidth := if opts.hasGetWindowSize then env.width else opts.width
      let initHeight := if opts.hasGetWindowSize then env.height else opts.height
      ({ st with dragging := true, initialPos := ⟨x, y, initHeight, initWidth⟩ }, [])
    else
      let cache : IPoint := ⟨x + st.winPos.x - st.initialPos.x,
                             y + st.winPos.y - st.initialPos.y⟩
      ({ st with cachePosition := some cache, winPos := cache },
       [Effect.setBounds cache.x cache.y st.initialPos.height st.initialPos.width])

/-- A raw window message delivered to a Strategy A window; `env` carries the
momentary `getWindowSize()` result. -/
inductive Win32Event where
  | mousemove (env : ISize) (wParam lParam : List Nat)
  | lbuttonup
deriving DecidableEq

/-- One handler invocation. -/
def win32Step (opts : IDragOptions) (st : Win32State) : Win32Event → Win32State × List Effect
  | .mousemove env wParam lParam => win32Move opts env st wParam lParam
  | .lbuttonup => win32ButtonUp st

/-- Deliver a sequence of messages, concatenating the emitted effects. -/
def win32Run (opts : IDragOptions) (st : Win32State) : List Win32Event → Win32State × List Effect
  | [] => (st, [])
  | e :: rest =>
      let s1 := win32Step opts st e
      let s2 := win32Run opts s1.1 rest
      (s2.1, s1.2 ++ s2.2)

/-- A move event whose button word has the `MK_LBUTTON` bit set. -/
def isQualifyingMove : Win32Event → Bool
  | .mousemove _ w _ => !(decide (Int.land (readInt16LE w 0) MK_LBUTTON = 0))
  | .lbuttonup => false

/-- Decoded cursor x of a move event (0 for a release). -/
def evX : Win32Event → Int
  | .mousemove _ _ l => readInt16LE l 0
  | .lbuttonup => 0

/-- Decoded cursor y of a move event (0 for a release). -/
def evY : Win32Event → Int
  | .mousemove _ _ l => readInt16LE l 2
  | .lbuttonup => 0

/-- Is the effect an `onDragEnd` invocation? -/
def isDragEndA : Effect → Bool
  | .dragEnd _ => true
  | _ => false

/-- Qualifying-move counter, reset by each release: after folding a history,
the number of qualifying moves delivered since the last `WM_LBUTTONUP`. -/
def qualStep (n : Nat) (e : Win32Event) : Nat :=
  match e with
  | .lbuttonup => 0
  | .mousemove _ _ _ => if isQualifyingMove e then n + 1 else n

/-- Number of qualifying move events since the last release in `evs`. -/
def qualSince (evs : List Win32Event) : Nat :=
  evs.foldl qualStep 0

/-!
Strategy B (`class WindowDrag`): a registry `registeredWindows` from window
handle to its `IDragOptions`, populated by `setWindowDraggable` on non-win32
platforms, which also rebinds `options.onDragEnd` to a debounced wrapper of the
caller's original callback and deletes the entry when the window closes.
`setup` installs the `"set-window-draggable"` IPC handler.  Window handles are
modelled as `Nat`; time as `Nat` milliseconds. -/

/-- A registry entry: the stored `IDragOptions` of a registered window
(the rebound `onDragEnd` is represented by the pending-timer machinery). -/
structure BRegistration where
  width : Int
  height : Int
  hasGetWindowSize : Bool
deriving DecidableEq

/-- Modelled from the spec: the `debounce` helper imported from
`@/common/debounce` is not under `src/`.  Per the spec it wraps a callback so
that "only the last call within a 300ms quiet window actually fires
(trailing-edge debounce, no leading-edge call)": each call stores its argument
and (re)arms a timer 300ms out; when the timer's deadline passes with no newer
call, the wrapped callback fires once with the stored argument.  A pending
timer is one armed, not-yet-fired deadline of the debounced wrapper created
for a registration (one wrapper per registration, identified by its window
handle). -/
structure PendingTimer where
  handle : Nat
  deadline : Nat
  arg : IPoint
deriving DecidableEq

/-- Strategy B state: the `registeredWindows` map (association list keyed by
window handle) plus the armed debounce timers.  Timers are host-global: they
are owned by the runtime's timer queue, not by the registry, so deleting a
registry entry does not touch them. -/
structure BState where
  registeredWindows : List (Nat × BRegistration)
  pending : List PendingTimer
deriving DecidableEq

/-- Observable effects of Strategy B: `setBounds` on a window, and the
caller's original `onDragEnd` firing (from the debounce trailing edge). -/
inductive BEffect where
  | setBounds (handle : Nat) (x y height width : Int)
  | dragEnd (handle : Nat) (pos : IPoint)
deriving DecidableEq

/-- Events delivered to Strategy B: an IPC `"set-window-draggable"` message
from window `handle` carrying `position`, the window's `"closed"` notification,
and the passage of time to instant `t` (which lets due timers fire). -/
inductive BEvent where
  | message (handle : Nat) (pos : IPoint) (env : ISize) (t : Nat)
  | closed (handle : Nat) (t : Nat)
  | tick (t : Nat)
deriving DecidableEq

/-- Fire every pending debounce timer whose deadline has passed by instant
`t`: each fires the original `onDragEnd` with its stored argument and is
removed from the timer queue. -/
def fireDue (t : Nat) (st : BState) : BState × List BEffect :=
  ({ st with pending := st.pending.filter (fun p => !(decide (p.deadline ≤ t))) },
   (st.pending.filter (fun p => decide (p.deadline ≤ t))).map
     (fun p => BEffect.dragEnd p.handle p.arg))

/-- Modelled from the spec (see `PendingTimer`): calling the debounced
`onDragEnd` wrapper of registration `h` at instant `t` with argument `pos`
re-arms that wrapper's timer to `t + 300` with `pos`, superseding any timer it
had armed before; no callback fires now (no leading edge). -/
def debounceCall (h : Nat) (t : Nat) (pos : IPoint) (pending : List PendingTimer) :
    List PendingTimer :=
  ⟨h, t + 300, pos⟩ :: pending.filter (fun p => !(decide (p.handle = h)))

/-- The `"set-window-draggable"` IPC handler body (`WindowDrag.setup`): if the
sending window is registered, resolve the effective size (`getWindowSize()` if
provided — its momentary value is `env` — else the stored fallback), call
`setBounds` with the message's `{x, y}` and that size, then call the stored
(debounced) `onDragEnd` with the position; otherwise do nothing. -/
def onSetWindowDraggable (st : BState) (h : Nat) (pos : IPoint) (env : ISize)
    (t : Nat) : BState × List BEffect :=
  match st.registeredWindows.lookup h with
  | none => (st, [])
  | some metadata =>
      let width := if metadata.hasGetWindowSize then env.width else metadata.width
      let height := if metadata.hasGetWindowSize then env.height else metadata.height
      ({ st with pending := debounceCall h t pos st.pending },
       [BEffect.setBounds h pos.x pos.y height width])

/-- The `"closed"` listener registered by `setWindowDraggable`: delete the
window's entry from `registeredWindows`.  Nothing else: no timer is touched. -/
def onWindowClosed (st : BState) (h : Nat) : BState × List BEffect :=
  ({ st with registeredWindows := st.registeredWindows.filter (fun e => !(decide (e.1 = h))) },
   [])

/-- One Strategy B event: due timers fire first (the runtime drains its timer
queue before delivering a later event), then the event's handler runs. -/
def bStep (st : BState) : BEvent → BState × List BEffect
  | .message h pos env t =>
      let s1 := fireDue t st
      let s2 := onSetWindowDraggable s1.1 h pos env t
      (s2.1, s1.2 ++ s2.2)
  | .closed h t =>
      let s1 := fireDue t st
      let s2 := onWindowClosed s1.1 h
      (s2.1, s1.2 ++ s2.2)
  | .tick t => fireDue t st

/-- Deliver a sequence of Strategy B events, concatenating effects. -/
def bRun (st : BState) : List BEvent → BState × List BEffect
  | [] => (st, [])
  | e :: rest =>
      let s1 := bStep st e
      let s2 := bRun s1.1 rest
      (s2.1, s1.2 ++ s2.2)

/-- Is the effect an invocation of the original `onDragEnd`? -/
def isDragEndB : BEffect → Bool
  | .dragEnd _ _ => true
  | _ => false

/-- The burst shape of a timed message list: starting after an event at
`tprev`, each message arrives no earlier than its predecessor and strictly
within the 300ms quiet window after it. -/
def burstOK : Nat → List (IPoint × Nat) → Bool
  | _, [] => true
  | tprev, (_, t) :: rest => decide (tprev ≤ t) && decide (t < tprev + 300) && burstOK t rest

/-- Build the IPC message event for a timed position. -/
def mkMsg (h : Nat) (env : ISize) (m : IPoint × Nat) : BEvent :=
  BEvent.message h m.1 env m.2

/-- The abstraction invariant tying a Strategy A state reached from a fresh
start to the number `n` of qualifying moves since the last release. -/
def freshInv (st : Win32State) (n : Nat) : Prop :=
  (st.dragging = true ↔ 1 ≤ n) ∧ (st.cachePosition ≠ none ↔ 2 ≤ n)

example :
    (bRun ⟨[(1, ⟨200, 150, false⟩)], []⟩
      [mkMsg 1 ⟨0, 0⟩ (⟨10, 20⟩, 0), mkMsg 1 ⟨0, 0⟩ (⟨30, 40⟩, 50),
       BEvent.tick 350]).2 =
    [BEffect.setBounds 1 10 20 150 200, BEffect.setBounds 1 30 40 150 200,
     BEffect.dragEnd 1 ⟨30, 40⟩] := by decide

example :
    (bRun ⟨[(1, ⟨200, 150, false⟩)], []⟩
      [mkMsg 1 ⟨0, 0⟩ (⟨10, 20⟩, 0), BEvent.closed 1 10, BEvent.tick 300]).2 =
    [BEffect.setBounds 1 10 20 150 200, BEffect.dragEnd 1 ⟨10, 20⟩] := by decide

example : readInt16LE (enc16 (-3)) 0 = -3 := by decide
example : readInt16LE [50, 0, 60, 0] 2 = 60 := by decide
example :
    (win32Run ⟨1, 1, false⟩ (win32Init ⟨1, 1, false⟩ ⟨100, 100⟩)
      [.mousemove ⟨0, 0⟩ [1, 0] [50, 0, 60, 0],
       .mousemove ⟨0, 0⟩ [1, 0] [70, 0, 60, 0],
       .lbuttonup]).2 =
    [Effect.setBounds 120 100 1 1, Effect.dragEnd (some ⟨120, 100⟩)] := by decide

/-! ### Helper lemmas: Strategy A -/

lemma win32Run_cons (opts : IDragOptions) (st : Win32State) (e : Win32Event)
    (rest : List Win32Event) :
    win32Run opts st (e :: rest) =
      ((win32Run opts (win32Step opts st e).1 rest).1,
       (win32Step opts st e).2 ++ (win32Run opts (win32Step opts st e).1 rest).2) := rfl

lemma bRun_cons (st : BState) (e : BEvent) (rest : List BEvent) :
    bRun st (e :: rest) =
      ((bRun (bStep st e).1 rest).1, (bStep st e).2 ++ (bRun (bStep st e).1 rest).2) := rfl

lemma readInt16LE_enc16 (v : Int) (h1 : -32768 ≤ v) (h2 : v < 32768) (rest : List Nat) :
    readInt16LE (enc16 v ++ rest) 0 = v := by
  simp only [enc16, readInt16LE, List.cons_append, List.nil_append,
             List.getD_cons_zero, List.getD_cons_succ]
  rw [Nat.mod_add_div]
  split <;> omega

lemma readInt16LE_enc16_snd (x y : Int) (h1 : -32768 ≤ y) (h2 : y < 32768) :
    readInt16LE (enc16 x ++ enc16 y) 2 = y := by
  simp only [enc16, readInt16LE, List.cons_append, List.nil_append,
             List.getD_cons_zero, List.getD_cons_succ]
  rw [Nat.mod_add_div]
  split <;> omega

lemma win32Run_append (opts : IDragOptions) (a b : List Win32Event) :
    ∀ st : Win32State,
      win32Run opts st (a ++ b) =
        ((win32Run opts (win32Run opts st a).1 b).1,
         (win32Run opts st a).2 ++ (win32Run opts (win32Run opts st a).1 b).2) := by
  induction a with
  | nil => intro st; simp [win32Run]
  | cons e rest ih => intro st; simp [win32Run, ih]

lemma win32Move_notPressed (opts : IDragOptions) (env : ISize) (st : Win32State)
    (w l : List Nat) (h0 : Int.land (readInt16LE w 0) MK_LBUTTON = 0) :
    win32Move opts env st w l = (st, []) := by
  simp [win32Move, h0]

lemma win32Move_origin (opts : IDragOptions) (env : ISize) (st : Win32State)
    (w l : List Nat) (hq : ¬ Int.land (readInt16LE w 0) MK_LBUTTON = 0)
    (hd : st.dragging = false) :
    win32Move opts env st w l =
      ({ st with dragging := true,
                 initialPos := ⟨readInt16LE l 0, readInt16LE l 2,
                   if opts.hasGetWindowSize then env.height else opts.height,
                   if opts.hasGetWindowSize then env.width else opts.width⟩ }, []) := by
  simp [win32Move, hq, hd]

lemma win32Move_drag (opts : IDragOptions) (env : ISize) (st : Win32State)
    (w l : List Nat) (hq : ¬ Int.land (readInt16LE w 0) MK_LBUTTON = 0)
    (hd : st.dragging = true) :
    win32Move opts env st w l =
      ({ st with
          cachePosition := some ⟨readInt16LE l 0 + st.winPos.x - st.initialPos.x,
                                 readInt16LE l 2 + st.winPos.y - st.initialPos.y⟩,
          winPos := ⟨readInt16LE l 0 + st.winPos.x - st.initialPos.x,
                     readInt16LE l 2 + st.winPos.y - st.initialPos.y⟩ },
       [Effect.setBounds (readInt16LE l 0 + st.winPos.x - st.initialPos.x)
          (readInt16LE l 2 + st.winPos.y - st.initialPos.y)
          st.initialPos.height st.initialPos.width]) := by
  simp [win32Move, hq, hd]

lemma freshInv_step (opts : IDragOptions) (st : Win32State) (e : Win32Event) (n : Nat)
    (h : freshInv st n) : freshInv (win32Step opts st e).1 (qualStep n e) := by
  obtain ⟨h1, h2⟩ := h
  cases e with
  | lbuttonup =>
      constructor <;> simp [win32Step, win32ButtonUp, qualStep]
  | mousemove env w l =>
      by_cases hb : Int.land (readInt16LE w 0) MK_LBUTTON = 0
      · simpa [win32Step, win32Move_notPressed _ _ _ _ _ hb, qualStep,
               isQualifyingMove, hb] using ⟨h1, h2⟩
      · cases hd : st.dragging with
        | false =>
            have hn : n = 0 := by
              by_contra hc
              exact absurd (h1.2 (by omega)) (by simp [hd])
            have hcache : st.cachePosition = none := by
              rcases hc : st.cachePosition with _ | p
              · rfl
              · exact absurd (h2.1 (by simp [hc])) (by omega)
            simp [win32Step, win32Move_origin _ _ _ _ _ hb hd, qualStep,
                  isQualifyingMove, hb, freshInv, hcache, hn]
        | true =>
            have hn : 1 ≤ n := h1.1 hd
            refine ⟨?_, ?_⟩ <;>
              simp [win32Step, win32Move_drag _ _ _ _ _ hb hd, qualStep,
                    isQualifyingMove, hb, hd]
            omega

lemma win32_dragPhase (opts : IDragOptions) :
    ∀ (moves : List Win32Event) (st : Win32State),
      st.dragging = true → (∀ e ∈ moves, isQualifyingMove e = true) →
      (win32Run opts st moves).1.dragging = true ∧
      (win32Run opts st moves).1.initialPos = st.initialPos ∧
      (win32Run opts st moves).1.winPos =
        ⟨st.winPos.x + (moves.map (fun e => evX e - st.initialPos.x)).sum,
         st.winPos.y + (moves.map (fun e => evY e - st.initialPos.y)).sum⟩ ∧
      (moves = [] → (win32Run opts st moves).1.cachePosition = st.cachePosition) ∧
      (moves ≠ [] → (win32Run opts st moves).1.cachePosition =
        some (win32Run opts st moves).1.winPos) ∧
      (∀ eff ∈ (win32Run opts st moves).2,
        ∃ a b, eff = Effect.setBounds a b st.initialPos.height st.initialPos.width) ∧
      (win32Run opts st moves).2.filter isDragEndA = [] := by
  intro moves
  induction moves with
  | nil =>
      intro st hd _
      refine ⟨hd, rfl, ?_, fun _ => rfl, fun hne => absurd rfl hne, by simp [win32Run], ?_⟩
      · simp [win32Run]
      · simp [win32Run]
  | cons e rest ih =>
      intro st hd hq
      have hqe : isQualifyingMove e = true := hq e (by simp)
      cases e with
      | lbuttonup => simp [isQualifyingMove] at hqe
      | mousemove env w l =>
          have hb : ¬ Int.land (readInt16LE w 0) MK_LBUTTON = 0 := by
            simpa [isQualifyingMove] using hqe
          have hstep := win32Move_drag opts env st w l hb hd
          set c : IPoint := ⟨readInt16LE l 0 + st.winPos.x - st.initialPos.x,
                             readInt16LE l 2 + st.winPos.y - st.initialPos.y⟩ with hc
          set st1 : Win32State := { st with cachePosition := some c, winPos := c } with hst1
          have hrun : win32Run opts st (Win32Event.mousemove env w l :: rest) =
              ((win32Run opts st1 rest).1,
               Effect.setBounds c.x c.y st.initialPos.height st.initialPos.width ::
                 (win32Run opts st1 rest).2) := by
            simp [win32Run, win32Step, hstep, hst1]
          have hrest := ih st1 (by simp [hst1, hd]) (fun e he => hq e (by simp [he]))
          obtain ⟨r1, r2, r3, r4, r5, r6, r7⟩ := hrest
          have hinit : st1.initialPos = st.initialPos := by simp [hst1]
          refine ⟨by simp [hrun]; exact r1, by simp [hrun]; rw [r2, hinit], ?_, ?_, ?_, ?_, ?_⟩
          · rw [hrun]
            simp only [Prod.fst]
            rw [r3]
            simp [hst1, hc, evX, evY]
            constructor <;> ring
          · intro hne; exact absurd hne (by simp)
          · intro _
            rw [hrun]
            rcases rest with _ | ⟨e2, rest2⟩
            · simp [win32Run, hst1]
            · simpa using r5 (by simp)
          · intro eff heff
            rw [hrun] at heff
            simp at heff
            rcases heff with heff | heff
            · exact ⟨c.x, c.y, heff⟩
            · obtain ⟨a, b, hab⟩ := r6 eff heff
              exact ⟨a, b, by rw [hab, hinit]⟩
          · rw [hrun]
            simp [isDragEndA, r7]

lemma freshInv_run (opts : IDragOptions) (evs : List Win32Event) :
    ∀ (st : Win32State) (n : Nat), freshInv st n →
      freshInv (win32Run opts st evs).1 (evs.foldl qualStep n) := by
  induction evs with
  | nil => intro st n h; simpa [win32Run] using h
  | cons e rest ih =>
      intro st n h
      have h1 := freshInv_step opts st e n h
      simpa [win32Run, List.foldl] using ih _ _ h1

lemma win32_release_count (opts : IDragOptions) (st0 : Win32State) (evs : List Win32Event)
    (hd : st0.dragging = false) (hcp : st0.cachePosition = none) :
    (win32Run opts st0 (evs ++ [Win32Event.lbuttonup])).2.countP isDragEndA =
      (win32Run opts st0 evs).2.countP isDragEndA +
        (if 2 ≤ qualSince evs then 1 else 0) := by
  have hinv := freshInv_run opts evs st0 0 (by constructor <;> simp [hd, hcp])
  rw [win32Run_append]
  rcases hcp2 : (win32Run opts st0 evs).1.cachePosition with _ | p
  · have hn : ¬ 2 ≤ qualSince evs := fun hh => (hinv.2.2 hh) hcp2
    simp [List.countP_append, win32Run, win32Step, win32ButtonUp, hcp2, hn]
  · have hn : 2 ≤ qualSince evs := hinv.2.1 (by simp [hcp2])
    simp [List.countP_append, win32Run, win32Step, win32ButtonUp, hcp2, hn, isDragEndA]

lemma win32Step_no_null (opts : IDragOptions) (st : Win32State) (e : Win32Event) :
    Effect.dragEnd none ∉ (win32Step opts st e).2 := by
  cases e with
  | lbuttonup =>
      rcases h : st.cachePosition with _ | p <;>
        simp [win32Step, win32ButtonUp, h]
  | mousemove env w l =>
      by_cases hb : Int.land (readInt16LE w 0) MK_LBUTTON = 0
      · simp [win32Step, win32Move_notPressed _ _ _ _ _ hb]
      · cases hd : st.dragging with
        | false => simp [win32Step, win32Move_origin _ _ _ _ _ hb hd]
        | true => simp [win32Step, win32Move_drag _ _ _ _ _ hb hd]

lemma win32Run_no_null (opts : IDragOptions) (evs : List Win32Event) :
    ∀ st : Win32State, Effect.dragEnd none ∉ (win32Run opts st evs).2 := by
  induction evs with
  | nil => intro st; simp [win32Run]
  | cons e rest ih =>
      intro st
      simp only [win32Run, List.mem_append, not_or]
      exact ⟨win32Step_no_null opts st e, ih _⟩

/-! ### Helper lemmas: Strategy B -/

lemma bRun_append (a b : List BEvent) :
    ∀ st : BState,
      bRun st (a ++ b) =
        ((bRun (bRun st a).1 b).1, (bRun st a).2 ++ (bRun (bRun st a).1 b).2) := by
  induction a with
  | nil => intro st; simp [bRun]
  | cons e rest ih => intro st; simp [bRun, ih]

lemma fireDue_none (t : Nat) (st : BState)
    (hpend : ∀ p ∈ st.pending, t < p.deadline) :
    fireDue t st = (st, []) := by
  have h1 : st.pending.filter (fun p => !(decide (p.deadline ≤ t))) = st.pending := by
    apply List.filter_eq_self.2
    intro a ha
    simpa using Nat.not_le.2 (hpend a ha)
  have h2 : st.pending.filter (fun p => decide (p.deadline ≤ t)) = [] := by
    apply List.filter_eq_nil_iff.2
    intro a ha
    simpa using Nat.not_le.2 (hpend a ha)
  simp [fireDue, h1, h2]

lemma fireDue_single (t : Nat) (st : BState) (q : PendingTimer)
    (hpend : st.pending = [q]) (hdl : q.deadline ≤ t) :
    fireDue t st = ({ st with pending := [] }, [BEffect.dragEnd q.handle q.arg]) := by
  simp [fireDue, hpend, hdl]

lemma b_burst (h : Nat) (reg : BRegistration) (env : ISize) :
    ∀ (msgs : List (IPoint × Nat)) (st : BState) (pprev : IPoint) (tprev : Nat),
      st.registeredWindows.lookup h = some reg →
      st.pending = [⟨h, tprev + 300, pprev⟩] →
      burstOK tprev msgs = true →
      (bRun st (msgs.map (mkMsg h env))).1.registeredWindows = st.registeredWindows ∧
      (bRun st (msgs.map (mkMsg h env))).1.pending =
        [⟨h, (msgs.getLastD (pprev, tprev)).2 + 300, (msgs.getLastD (pprev, tprev)).1⟩] ∧
      (bRun st (msgs.map (mkMsg h env))).2.filter isDragEndB = [] := by
  intro msgs
  induction msgs with
  | nil =>
      intro st pprev tprev hreg hpend _
      simp [bRun, hpend]
  | cons m rest ih =>
      intro st pprev tprev hreg hpend hburst
      obtain ⟨p, t⟩ := m
      simp only [burstOK, Bool.and_eq_true, decide_eq_true_eq] at hburst
      obtain ⟨⟨ht1, ht2⟩, ht3⟩ := hburst
      have hfire : fireDue t st = (st, []) := by
        apply fireDue_none
        intro q hq
        rw [hpend] at hq
        simp at hq
        simp [hq]
        omega
      have hmsg : onSetWindowDraggable st h p env t =
          ({ st with pending := [⟨h, t + 300, p⟩] },
           [BEffect.setBounds h p.x p.y
              (if reg.hasGetWindowSize then env.height else reg.height)
              (if reg.hasGetWindowSize then env.width else reg.width)]) := by
        simp [onSetWindowDraggable, hreg, debounceCall, hpend]
      have hstep : bStep st (mkMsg h env (p, t)) =
          ({ st with pending := [⟨h, t + 300, p⟩] },
           [BEffect.setBounds h p.x p.y
              (if reg.hasGetWindowSize then env.height else reg.height)
              (if reg.hasGetWindowSize then env.width else reg.width)]) := by
        simp [bStep, mkMsg, hfire, hmsg]
      have hrest := ih { st with pending := [⟨h, t + 300, p⟩] } p t (by simpa using hreg)
        (by simp) ht3
      obtain ⟨q1, q2, q3⟩ := hrest
      refine ⟨?_, ?_, ?_⟩
      · simpa [bRun, hstep] using q1
      · simp only [List.map_cons, bRun, hstep, List.getLastD_cons]
        simpa using q2
      · simp only [List.map_cons, bRun, hstep]
        simp [isDragEndB, q3]

/-! ### Claim theorems -/

/-- C2: Strategy A origin capture — from a non-dragging state, the first
button-set move event never calls `setBounds`: it only flips `dragging` and
records the decoded pointer coordinates (and resolved size) as the drag
origin; a subsequent button-set move at pointer `(px, py)` calls `setBounds`
with top-left equal to the window's current position plus
`(px - origin.x, py - origin.y)` per axis. -/
theorem C2_theorem (opts : IDragOptions) (env1 env2 : ISize) (st : Win32State)
    (w1 l1 w2 l2 : List Nat)
    (hd : st.dragging = false)
    (hq1 : isQualifyingMove (.mousemove env1 w1 l1) = true)
    (hq2 : isQualifyingMove (.mousemove env2 w2 l2) = true) :
    (win32Step opts st (.mousemove env1 w1 l1)).2 = [] ∧
    (win32Step opts st (.mousemove env1 w1 l1)).1 =
      { st with dragging := true,
                initialPos := ⟨readInt16LE l1 0, readInt16LE l1 2,
                  if opts.hasGetWindowSize then env1.height else opts.height,
                  if opts.hasGetWindowSize then env1.width else opts.width⟩ } ∧
    (win32Run opts st [.mousemove env1 w1 l1, .mousemove env2 w2 l2]).2 =
      [Effect.setBounds
        (st.winPos.x + (readInt16LE l2 0 - readInt16LE l1 0))
        (st.winPos.y + (readInt16LE l2 2 - readInt16LE l1 2))
        (if opts.hasGetWindowSize then env1.height else opts.height)
        (if opts.hasGetWindowSize then env1.width else opts.width)] := by
  have hb1 : ¬ Int.land (readInt16LE w1 0) MK_LBUTTON = 0 := by
    simpa [isQualifyingMove] using hq1
  have hb2 : ¬ Int.land (readInt16LE w2 0) MK_LBUTTON = 0 := by
    simpa [isQualifyingMove] using hq2
  have h1 := win32Move_origin opts env1 st w1 l1 hb1 hd
  refine ⟨by simp [win32Step, h1], by simp [win32Step, h1], ?_⟩
  rw [win32Run_cons]
  simp only [win32Step]
  rw [h1]
  have h2 := win32Move_drag opts env2
    ({ st with dragging := true,
               initialPos := ⟨readInt16LE l1 0, readInt16LE l1 2,
                 if opts.hasGetWindowSize then env1.height else opts.height,
                 if opts.hasGetWindowSize then env1.width else opts.width⟩ })
    w2 l2 hb2 (by simp)
  simp [win32Run, win32Step, h2]
  constructor <;> ring

/-- C2 witness: the spec's example — origin move at `(50, 60)` with the window
at `(100, 100)` produces no `setBounds`; the next move at `(70, 60)` produces
`setBounds` with `x = 100 + (70 - 50) = 120`. -/
theorem C2_witness :
    (win32Step ⟨1, 1, false⟩ (win32Init ⟨1, 1, false⟩ ⟨100, 100⟩)
      (.mousemove ⟨0, 0⟩ [1, 0] [50, 0, 60, 0])).2 = [] ∧
    (win32Run ⟨1, 1, false⟩ (win32Init ⟨1, 1, false⟩ ⟨100, 100⟩)
      [.mousemove ⟨0, 0⟩ [1, 0] [50, 0, 60, 0],
       .mousemove ⟨0, 0⟩ [1, 0] [70, 0, 60, 0]]).2 =
      [Effect.setBounds 120 100 1 1] := by
  have h := C2_theorem ⟨1, 1, false⟩ ⟨0, 0⟩ ⟨0, 0⟩ (win32Init ⟨1, 1, false⟩ ⟨100, 100⟩)
    [1, 0] [50, 0, 60, 0] [1, 0] [70, 0, 60, 0] (by decide) (by decide) (by decide)
  revert h
  decide

/-- C3: the `DragSession` invariant — after any event sequence delivered to a
freshly registered Strategy A window, `dragging` is true exactly when at least
one qualifying move arrived since the last release, and `cachePosition`
(`lastPosition`) is non-null exactly when at least one post-origin move was
processed since the last release (hence only while `dragging` is true). -/
theorem C3_theorem (opts : IDragOptions) (st0 : Win32State) (evs : List Win32Event)
    (hd : st0.dragging = false) (hcp : st0.cachePosition = none) :
    ((win32Run opts st0 evs).1.dragging = true ↔ 1 ≤ qualSince evs) ∧
    ((win32Run opts st0 evs).1.cachePosition ≠ none ↔ 2 ≤ qualSince evs) ∧
    ((win32Run opts st0 evs).1.cachePosition ≠ none →
      (win32Run opts st0 evs).1.dragging = true) := by
  have hinv := freshInv_run opts evs st0 0 (by constructor <;> simp [hd, hcp])
  exact ⟨hinv.1, hinv.2, fun hc => hinv.1.2 (by have := hinv.2.1 hc; omega)⟩

/-- C3 witness: after origin move, one drag move and a release, `dragging` is
off and the cache is cleared; after the two moves it is on with a cache. -/
theorem C3_witness :
    ((win32Run ⟨1, 1, false⟩ (win32Init ⟨1, 1, false⟩ ⟨100, 100⟩)
      [.mousemove ⟨0, 0⟩ [1, 0] [50, 0, 60, 0],
       .mousemove ⟨0, 0⟩ [1, 0] [70, 0, 60, 0]]).1.dragging = true ↔
        1 ≤ qualSince [.mousemove ⟨0, 0⟩ [1, 0] [50, 0, 60, 0],
          .mousemove ⟨0, 0⟩ [1, 0] [70, 0, 60, 0]]) ∧
    ((win32Run ⟨1, 1, false⟩ (win32Init ⟨1, 1, false⟩ ⟨100, 100⟩)
      [.mousemove ⟨0, 0⟩ [1, 0] [50, 0, 60, 0],
       .mousemove ⟨0, 0⟩ [1, 0] [70, 0, 60, 0]]).1.cachePosition ≠ none ↔
        2 ≤ qualSince [.mousemove ⟨0, 0⟩ [1, 0] [50, 0, 60, 0],
          .mousemove ⟨0, 0⟩ [1, 0] [70, 0, 60, 0]]) :=
  ⟨(C3_theorem ⟨1, 1, false⟩ (win32Init ⟨1, 1, false⟩ ⟨100, 100⟩)
      [.mousemove ⟨0, 0⟩ [1, 0] [50, 0, 60, 0],
       .mousemove ⟨0, 0⟩ [1, 0] [70, 0, 60, 0]] (by decide) (by decide)).1,
   (C3_theorem ⟨1, 1, false⟩ (win32Init ⟨1, 1, false⟩ ⟨100, 100⟩)
      [.mousemove ⟨0, 0⟩ [1, 0] [50, 0, 60, 0],
       .mousemove ⟨0, 0⟩ [1, 0] [70, 0, 60, 0]] (by decide) (by decide)).2.1⟩

/-- C8: a move event whose button word has the `MK_LBUTTON` bit clear is a
complete no-op in every state (including mid-drag): no `setBounds`, no state
change — `dragging`, `cachePosition` and `initialPos` all unchanged. -/
theorem C8_theorem (opts : IDragOptions) (env : ISize) (st : Win32State)
    (w l : List Nat) (h0 : Int.land (readInt16LE w 0) MK_LBUTTON = 0) :
    win32Step opts st (.mousemove env w l) = (st, []) := by
  simp [win32Step, win32Move_notPressed _ _ _ _ _ h0]

/-- C8 witness: a button-released move arriving mid-drag (dragging on, cache
set) changes nothing and emits nothing. -/
theorem C8_witness :
    win32Step ⟨1, 1, false⟩ ⟨⟨120, 100⟩, true, some ⟨120, 100⟩, ⟨50, 60, 1, 1⟩⟩
      (.mousemove ⟨9, 9⟩ [0, 0] [70, 0, 60, 0]) =
      (⟨⟨120, 100⟩, true, some ⟨120, 100⟩, ⟨50, 60, 1, 1⟩⟩, []) :=
  C8_theorem ⟨1, 1, false⟩ ⟨9, 9⟩ ⟨⟨120, 100⟩, true, some ⟨120, 100⟩, ⟨50, 60, 1, 1⟩⟩
    [0, 0] [70, 0, 60, 0] (by decide)

/-- C9: a `"set-window-draggable"` message whose originating window is not in
`registeredWindows` is silently ignored: no `setBounds`, no `onDragEnd`, no
state change (registry and timers untouched), no error (the handler is total). -/
theorem C9_theorem (st : BState) (h : Nat) (pos : IPoint) (env : ISize) (t : Nat)
    (hh : st.registeredWindows.lookup h = none) :
    onSetWindowDraggable st h pos env t = (st, []) := by
  simp [onSetWindowDraggable, hh]

/-- C9 witness: a message for unregistered handle 2 is a no-op even with
another window registered and a timer pending. -/
theorem C9_witness :
    onSetWindowDraggable ⟨[(1, ⟨200, 150, false⟩)], [⟨1, 300, ⟨10, 20⟩⟩]⟩ 2 ⟨5, 6⟩ ⟨0, 0⟩ 40 =
      (⟨[(1, ⟨200, 150, false⟩)], [⟨1, 300, ⟨10, 20⟩⟩]⟩, []) :=
  C9_theorem ⟨[(1, ⟨200, 150, false⟩)], [⟨1, 300, ⟨10, 20⟩⟩]⟩ 2 ⟨5, 6⟩ ⟨0, 0⟩ 40 (by decide)

/-- C10: Strategy A never invokes `onDragEnd` with `null`: in every run from
every state, no emitted `onDragEnd` effect carries `none` — the release
handler only calls it with the (necessarily fully-computed) non-null cache. -/
theorem C10_theorem (opts : IDragOptions) (st : Win32State) (evs : List Win32Event) :
    (win32Run opts st evs).2.count (Effect.dragEnd none) = 0 :=
  List.count_eq_zero.2 (win32Run_no_null opts evs st)

/-- C6: coordinate decoding — the cursor position of a move event is the two
signed 16-bit little-endian integers of the `lParam` buffer (x at byte offset
0, y at byte offset 2), and repositioning is gated solely on bit `0x0001`
(`MK_LBUTTON`) of the signed 16-bit little-endian word at offset 0 of the
`wParam` buffer: two button words with equal `MK_LBUTTON` bits make the
handler behave identically, a clear bit makes it a no-op, and a set bit
mid-drag repositions by exactly the decoded coordinates. -/
theorem C6_theorem (x y : Int) (hx1 : -32768 ≤ x) (hx2 : x < 32768)
    (hy1 : -32768 ≤ y) (hy2 : y < 32768) :
    readInt16LE (enc16 x ++ enc16 y) 0 = x ∧
    readInt16LE (enc16 x ++ enc16 y) 2 = y ∧
    (∀ (opts : IDragOptions) (env : ISize) (st : Win32State) (w w2 l : List Nat),
      Int.land (readInt16LE w 0) MK_LBUTTON = Int.land (readInt16LE w2 0) MK_LBUTTON →
      win32Step opts st (.mousemove env w l) = win32Step opts st (.mousemove env w2 l)) ∧
    (∀ (opts : IDragOptions) (env : ISize) (st : Win32State) (w l : List Nat),
      Int.land (readInt16LE w 0) MK_LBUTTON = 0 →
      win32Step opts st (.mousemove env w l) = (st, [])) ∧
    (∀ (opts : IDragOptions) (env : ISize) (st : Win32State) (w : List Nat),
      st.dragging = true → Int.land (readInt16LE w 0) MK_LBUTTON ≠ 0 →
      (win32Step opts st (.mousemove env w (enc16 x ++ enc16 y))).2 =
        [Effect.setBounds (x + st.winPos.x - st.initialPos.x)
          (y + st.winPos.y - st.initialPos.y)
          st.initialPos.height st.initialPos.width]) := by
  refine ⟨readInt16LE_enc16 x hx1 hx2 _, readInt16LE_enc16_snd x y hy1 hy2, ?_, ?_, ?_⟩
  · intro opts env st w w2 l heq
    by_cases hb : Int.land (readInt16LE w 0) MK_LBUTTON = 0
    · rw [show win32Step opts st (.mousemove env w l) = win32Move opts env st w l from rfl,
          show win32Step opts st (.mousemove env w2 l) = win32Move opts env st w2 l from rfl,
          win32Move_notPressed _ _ _ _ _ hb,
          win32Move_notPressed _ _ _ _ _ (heq ▸ hb)]
    · have hb2 : ¬ Int.land (readInt16LE w2 0) MK_LBUTTON = 0 := heq ▸ hb
      cases hd : st.dragging with
      | false =>
          rw [show win32Step opts st (.mousemove env w l) = win32Move opts env st w l from rfl,
              show win32Step opts st (.mousemove env w2 l) = win32Move opts env st w2 l from rfl,
              win32Move_origin _ _ _ _ _ hb hd, win32Move_origin _ _ _ _ _ hb2 hd]
      | true =>
          rw [show win32Step opts st (.mousemove env w l) = win32Move opts env st w l from rfl,
              show win32Step opts st (.mousemove env w2 l) = win32Move opts env st w2 l from rfl,
              win32Move_drag _ _ _ _ _ hb hd, win32Move_drag _ _ _ _ _ hb2 hd]
  · intro opts env st w l hb
    simp [win32Step, win32Move_notPressed _ _ _ _ _ hb]
  · intro opts env st w hd hb
    rw [show win32Step opts st (.mousemove env w (enc16 x ++ enc16 y)) =
          win32Move opts env st w (enc16 x ++ enc16 y) from rfl,
        win32Move_drag _ _ _ _ _ hb hd]
    simp [readInt16LE_enc16 x hx1 hx2, readInt16LE_enc16_snd x y hy1 hy2]

/-- C6 witness: decoding `(-20, 60)` from raw bytes, gate equivalence of two
button words sharing the set bit, the no-op on a cleared bit, and the
mid-drag reposition at the decoded coordinates. -/
theorem C6_witness :
    readInt16LE (enc16 (-20) ++ enc16 60) 0 = -20 ∧
    readInt16LE (enc16 (-20) ++ enc16 60) 2 = 60 ∧
    (win32Step ⟨1, 1, false⟩ ⟨⟨100, 100⟩, true, none, ⟨50, 60, 1, 1⟩⟩
      (.mousemove ⟨0, 0⟩ [3, 0] (enc16 (-20) ++ enc16 60))).2 =
      [Effect.setBounds (-20 + 100 - 50) (60 + 100 - 60) 1 1] := by
  have h := C6_theorem (-20) 60 (by decide) (by decide) (by decide) (by decide)
  exact ⟨h.1, h.2.1,
    h.2.2.2.2 ⟨1, 1, false⟩ ⟨0, 0⟩ ⟨⟨100, 100⟩, true, none, ⟨50, 60, 1, 1⟩⟩ [3, 0]
      (by decide) (by decide)⟩

/-- C7: effective size resolution — at the origin-establishing move Strategy A
captures `getWindowSize()`'s momentary value when the option is provided, else
the registered fallback `width`/`height`; that captured size is then fixed:
through any run of qualifying drag moves `initialPos` never changes and every
emitted `setBounds` carries the captured height/width.  A Strategy B
`request-reposition` calls `setBounds` with the message's `{x, y}` and the
size resolved at that moment from `getWindowSize()` or the fallback. -/
theorem C7_theorem :
    (∀ (opts : IDragOptions) (env : ISize) (st : Win32State) (w l : List Nat),
      st.dragging = false → isQualifyingMove (.mousemove env w l) = true →
      (win32Step opts st (.mousemove env w l)).1.initialPos.width =
        (if opts.hasGetWindowSize then env.width else opts.width) ∧
      (win32Step opts st (.mousemove env w l)).1.initialPos.height =
        (if opts.hasGetWindowSize then env.height else opts.height)) ∧
    (∀ (opts : IDragOptions) (moves : List Win32Event) (st : Win32State),
      st.dragging = true → (∀ e ∈ moves, isQualifyingMove e = true) →
      (win32Run opts st moves).1.initialPos = st.initialPos ∧
      ∀ eff ∈ (win32Run opts st moves).2,
        ∃ a b, eff = Effect.setBounds a b st.initialPos.height st.initialPos.width) ∧
    (∀ (st : BState) (h : Nat) (reg : BRegistration) (pos : IPoint) (env : ISize) (t : Nat),
      st.registeredWindows.lookup h = some reg →
      (onSetWindowDraggable st h pos env t).2 =
        [BEffect.setBounds h pos.x pos.y
          (if reg.hasGetWindowSize then env.height else reg.height)
          (if reg.hasGetWindowSize then env.width else reg.width)]) := by
  refine ⟨?_, ?_, ?_⟩
  · intro opts env st w l hd hq
    have hb : ¬ Int.land (readInt16LE w 0) MK_LBUTTON = 0 := by
      simpa [isQualifyingMove] using hq
    simp [win32Step, win32Move_origin _ _ _ _ _ hb hd]
  · intro opts moves st hd hq
    obtain ⟨-, p2, -, -, -, p6, -⟩ := win32_dragPhase opts moves st hd hq
    exact ⟨p2, p6⟩
  · intro st h reg pos env t hreg
    simp [onSetWindowDraggable, hreg]

/-- C7 witness: with `getWindowSize` provided the origin move captures the
momentary size `(640, 480)` (not the fallback `(1, 1)`); a later drag move
emits `setBounds` with the captured size even though the environment now
reports `(9, 9)`; and a Strategy B message resolves the fallback size at the
message itself. -/
theorem C7_witness :
    ((win32Step ⟨1, 1, true⟩ (win32Init ⟨1, 1, true⟩ ⟨100, 100⟩)
        (.mousemove ⟨640, 480⟩ [1, 0] [50, 0, 60, 0])).1.initialPos.width = 640 ∧
      (win32Step ⟨1, 1, true⟩ (win32Init ⟨1, 1, true⟩ ⟨100, 100⟩)
        (.mousemove ⟨640, 480⟩ [1, 0] [50, 0, 60, 0])).1.initialPos.height = 480) ∧
    (∀ eff ∈ (win32Run ⟨1, 1, true⟩ ⟨⟨100, 100⟩, true, none, ⟨50, 60, 480, 640⟩⟩
        [.mousemove ⟨9, 9⟩ [1, 0] [70, 0, 60, 0]]).2,
      ∃ a b, eff = Effect.setBounds a b 480 640) ∧
    (onSetWindowDraggable ⟨[(1, ⟨200, 150, false⟩)], []⟩ 1 ⟨10, 20⟩ ⟨9, 9⟩ 0).2 =
      [BEffect.setBounds 1 10 20 150 200] := by
  have h1 := C7_theorem.1 ⟨1, 1, true⟩ ⟨640, 480⟩ (win32Init ⟨1, 1, true⟩ ⟨100, 100⟩)
    [1, 0] [50, 0, 60, 0] (by decide) (by decide)
  have h2 := C7_theorem.2.1 ⟨1, 1, true⟩ [.mousemove ⟨9, 9⟩ [1, 0] [70, 0, 60, 0]]
    ⟨⟨100, 100⟩, true, none, ⟨50, 60, 480, 640⟩⟩ (by decide) (by decide)
  have h3 := C7_theorem.2.2 ⟨[(1, ⟨200, 150, false⟩)], []⟩ 1 ⟨200, 150, false⟩
    ⟨10, 20⟩ ⟨9, 9⟩ 0 (by decide)
  exact ⟨⟨by simpa using h1.1, by simpa using h1.2⟩, h2.2, by simpa using h3⟩

/-- C1 counterexample: with the window at `(100, 100)`, an origin move at
`(50, 60)` followed by two further button-set moves both at `(70, 60)` and a
release makes `onDragEnd` fire with `(140, 100)` — each move's delta is
applied to the window's *current* (already moved) position — not with
`(100 + (70 - 50), 100 + (60 - 60)) = (120, 100)` as the claim's "last move
event's delta applied to the window's position at drag-start" requires. -/
theorem C1_counterexample :
    (win32Run ⟨1, 1, false⟩ (win32Init ⟨1, 1, false⟩ ⟨100, 100⟩)
      [.mousemove ⟨0, 0⟩ [1, 0] [50, 0, 60, 0],
       .mousemove ⟨0, 0⟩ [1, 0] [70, 0, 60, 0],
       .mousemove ⟨0, 0⟩ [1, 0] [70, 0, 60, 0],
       .lbuttonup]).2.filter isDragEndA = [Effect.dragEnd (some ⟨140, 100⟩)] ∧
    (⟨140, 100⟩ : IPoint) ≠ ⟨100 + (70 - 50), 100 + (60 - 60)⟩ := by decide

/-- C1 (amended): a release invokes `onDragEnd` exactly once, with the cached
`lastPosition`, iff at least one post-origin qualifying move was processed
since the previous release, and otherwise not at all; in an
origin + N moves + release sequence the single argument equals the window's
drag-start position plus, per axis, the *sum over the N moves* of (that
move's decoded coordinate minus the origin coordinate) — the deltas
accumulate against the current window position rather than the last delta
alone being applied to the drag-start position. -/
theorem C1_theorem (opts : IDragOptions) (st0 : Win32State) (origin : Win32Event)
    (moves : List Win32Event)
    (hd : st0.dragging = false) (hcp : st0.cachePosition = none)
    (hqo : isQualifyingMove origin = true)
    (hqm : ∀ e ∈ moves, isQualifyingMove e = true) :
    (win32Run opts st0 (origin :: (moves ++ [Win32Event.lbuttonup]))).2.filter isDragEndA =
      (if moves = [] then []
       else [Effect.dragEnd (some
         ⟨st0.winPos.x + (moves.map (fun e => evX e - evX origin)).sum,
          st0.winPos.y + (moves.map (fun e => evY e - evY origin)).sum⟩)]) ∧
    (∀ evs : List Win32Event,
      (win32Run opts st0 (evs ++ [Win32Event.lbuttonup])).2.countP isDragEndA =
        (win32Run opts st0 evs).2.countP isDragEndA +
          (if 2 ≤ qualSince evs then 1 else 0)) := by
  refine ⟨?_, fun evs => win32_release_count opts st0 evs hd hcp⟩
  cases origin with
  | lbuttonup => simp [isQualifyingMove] at hqo
  | mousemove env w l =>
    have hb : ¬ Int.land (readInt16LE w 0) MK_LBUTTON = 0 := by
      simpa [isQualifyingMove] using hqo
    have h1 := win32Move_origin opts env st0 w l hb hd
    rw [win32Run_cons]
    simp only [win32Step]
    rw [h1]
    simp only [List.nil_append]
    set st1 : Win32State :=
      { st0 with dragging := true,
                 initialPos := ⟨readInt16LE l 0, readInt16LE l 2,
                   if opts.hasGetWindowSize then env.height else opts.height,
                   if opts.hasGetWindowSize then env.width else opts.width⟩ } with hst1
    rw [win32Run_append]
    obtain ⟨p1, p2, p3, p4, p5, p6, p7⟩ :=
      win32_dragPhase opts moves st1 (by simp [hst1]) hqm
    rcases moves with _ | ⟨m1, mrest⟩
    · simp [win32Run, win32Step, win32ButtonUp, hst1, hcp, isDragEndA]
    · have hcn := p5 (by simp)
      simp only [List.filter_append, p7, List.nil_append]
      set S : Win32State := (win32Run opts st1 (m1 :: mrest)).1 with hS
      have hup : (win32Run opts S [Win32Event.lbuttonup]).2 =
          [Effect.dragEnd (some S.winPos)] := by
        simp [win32Run, win32Step, win32ButtonUp, hcn]
      rw [hup, p3]
      simp [isDragEndA, hst1, evX, evY]

/-- C1 witness: origin at `(50, 60)` (window at `(100, 100)`), one further
move at `(70, 60)`, release — `onDragEnd` fires exactly once with
`(100 + (70 - 50), 100 + (60 - 60)) = (120, 100)`. -/
theorem C1_witness :
    (win32Run ⟨1, 1, false⟩ (win32Init ⟨1, 1, false⟩ ⟨100, 100⟩)
      ((.mousemove ⟨0, 0⟩ [1, 0] [50, 0, 60, 0]) ::
        ([.mousemove ⟨0, 0⟩ [1, 0] [70, 0, 60, 0]] ++
          [Win32Event.lbuttonup]))).2.filter isDragEndA =
      [Effect.dragEnd (some ⟨120, 100⟩)] := by
  have h := (C1_theorem ⟨1, 1, false⟩ (win32Init ⟨1, 1, false⟩ ⟨100, 100⟩)
    (.mousemove ⟨0, 0⟩ [1, 0] [50, 0, 60, 0])
    [.mousemove ⟨0, 0⟩ [1, 0] [70, 0, 60, 0]]
    (by decide) (by decide) (by decide) (by decide)).1
  revert h
  decide

/-- C4: Strategy B debounce collapsing — a burst of `request-reposition`
messages for a registered window, each arriving strictly within the 300ms
quiet window of its predecessor, produces no `onDragEnd` during the burst (no
leading edge) and exactly one invocation of the original `onDragEnd`, carrying
the last message's position, once the quiet period has elapsed. -/
theorem C4_theorem (h : Nat) (reg : BRegistration) (env : ISize) (st0 : BState)
    (p1 : IPoint) (t1 : Nat) (msgs : List (IPoint × Nat)) (T : Nat)
    (hreg : st0.registeredWindows.lookup h = some reg)
    (hpend : st0.pending = [])
    (hburst : burstOK t1 msgs = true)
    (hT : (msgs.getLastD (p1, t1)).2 + 300 ≤ T) :
    (bRun st0 (mkMsg h env (p1, t1) :: msgs.map (mkMsg h env))).2.filter isDragEndB = [] ∧
    (bRun st0 ((mkMsg h env (p1, t1) :: msgs.map (mkMsg h env)) ++
        [BEvent.tick T])).2.filter isDragEndB =
      [BEffect.dragEnd h (msgs.getLastD (p1, t1)).1] := by
  have hfire : fireDue t1 st0 = (st0, []) := fireDue_none t1 st0 (by simp [hpend])
  have hmsg : onSetWindowDraggable st0 h p1 env t1 =
      ({ st0 with pending := [⟨h, t1 + 300, p1⟩] },
       [BEffect.setBounds h p1.x p1.y
          (if reg.hasGetWindowSize then env.height else reg.height)
          (if reg.hasGetWindowSize then env.width else reg.width)]) := by
    simp [onSetWindowDraggable, hreg, debounceCall, hpend]
  have hstep : bStep st0 (mkMsg h env (p1, t1)) =
      ({ st0 with pending := [⟨h, t1 + 300, p1⟩] },
       [BEffect.setBounds h p1.x p1.y
          (if reg.hasGetWindowSize then env.height else reg.height)
          (if reg.hasGetWindowSize then env.width else reg.width)]) := by
    simp [bStep, mkMsg, hfire, hmsg]
  set st1 : BState := { st0 with pending := [⟨h, t1 + 300, p1⟩] } with hst1
  obtain ⟨q1, q2, q3⟩ := b_burst h reg env msgs st1 p1 t1
    (by simpa [hst1] using hreg) (by simp [hst1]) hburst
  have part1 : (bRun st0 (mkMsg h env (p1, t1) ::
      msgs.map (mkMsg h env))).2.filter isDragEndB = [] := by
    rw [bRun_cons, hstep]
    simp [isDragEndB, q3]
  refine ⟨part1, ?_⟩
  rw [bRun_append, List.filter_append, part1, List.nil_append]
  have hfst : (bRun st0 (mkMsg h env (p1, t1) :: msgs.map (mkMsg h env))).1 =
      (bRun st1 (msgs.map (mkMsg h env))).1 := by
    rw [bRun_cons, hstep]
  rw [hfst]
  have hlast := fireDue_single T (bRun st1 (msgs.map (mkMsg h env))).1
    ⟨h, (msgs.getLastD (p1, t1)).2 + 300, (msgs.getLastD (p1, t1)).1⟩ q2 (by simpa using hT)
  simp [bRun, bStep, hlast, isDragEndB]

/-- C4 witness: five messages for registered window 1 at times 0, 50, 100,
150, 200 ms produce no `onDragEnd` during the burst; after the quiet period
(time 600) exactly one fires, with the fifth message's position. -/
theorem C4_witness :
    (bRun ⟨[(1, ⟨200, 150, false⟩)], []⟩
      (mkMsg 1 ⟨0, 0⟩ (⟨10, 11⟩, 0) ::
        [(⟨20, 21⟩, 50), (⟨30, 31⟩, 100), (⟨40, 41⟩, 150),
         (⟨50, 51⟩, 200)].map (mkMsg 1 ⟨0, 0⟩))).2.filter isDragEndB = [] ∧
    (bRun ⟨[(1, ⟨200, 150, false⟩)], []⟩
      ((mkMsg 1 ⟨0, 0⟩ (⟨10, 11⟩, 0) ::
        [(⟨20, 21⟩, 50), (⟨30, 31⟩, 100), (⟨40, 41⟩, 150),
         (⟨50, 51⟩, 200)].map (mkMsg 1 ⟨0, 0⟩)) ++
        [BEvent.tick 600])).2.filter isDragEndB = [BEffect.dragEnd 1 ⟨50, 51⟩] := by
  have h := C4_theorem 1 ⟨200, 150, false⟩ ⟨0, 0⟩ ⟨[(1, ⟨200, 150, false⟩)], []⟩
    ⟨10, 11⟩ 0 [(⟨20, 21⟩, 50), (⟨30, 31⟩, 100), (⟨40, 41⟩, 150), (⟨50, 51⟩, 200)] 600
    (by decide) (by decide) (by decide) (by decide)
  revert h
  decide

/-- C5 (documents the code bug): registered window 1 receives a message at
t = 0 (arming a 300ms debounce timer) and closes at t = 10.  The close does
remove the registry entry and later messages for the handle are no-ops, but
the pending debounce timer is neither released nor ignored: it survives the
close and at t = 300 still fires the original `onDragEnd` for the destroyed
window, contradicting the claim's final conjunct. -/
theorem C5_theorem :
    (bRun ⟨[(1, ⟨200, 150, false⟩)], []⟩
      [mkMsg 1 ⟨0, 0⟩ (⟨10, 20⟩, 0), BEvent.closed 1 10]).1.registeredWindows = [] ∧
    onSetWindowDraggable
      (bRun ⟨[(1, ⟨200, 150, false⟩)], []⟩
        [mkMsg 1 ⟨0, 0⟩ (⟨10, 20⟩, 0), BEvent.closed 1 10]).1 1 ⟨5, 6⟩ ⟨0, 0⟩ 20 =
      ((bRun ⟨[(1, ⟨200, 150, false⟩)], []⟩
        [mkMsg 1 ⟨0, 0⟩ (⟨10, 20⟩, 0), BEvent.closed 1 10]).1, []) ∧
    (bRun ⟨[(1, ⟨200, 150, false⟩)], []⟩
      [mkMsg 1 ⟨0, 0⟩ (⟨10, 20⟩, 0), BEvent.closed 1 10]).1.pending =
      [⟨1, 300, ⟨10, 20⟩⟩] ∧
    (bRun ⟨[(1, ⟨200, 150, false⟩)], []⟩
      [mkMsg 1 ⟨0, 0⟩ (⟨10, 20⟩, 0), BEvent.closed 1 10]).2.filter isDragEndB = [] ∧
    (bRun ⟨[(1, ⟨200, 150, false⟩)], []⟩
      [mkMsg 1 ⟨0, 0⟩ (⟨10, 20⟩, 0), BEvent.closed 1 10,
       BEvent.tick 300]).2.filter isDragEndB = [BEffect.dragEnd 1 ⟨10, 20⟩] := by decide
